import Mathlib

/-
Verification development for the crayons highlighting engine
(src/native/crayons/src/lib.rs). The five public operations — color,
add_lang, add_theme, list_langs, list_themes — are embedded as pure
functions over an explicit library state holding the two lock-guarded
catalogs (SYNTAX_SET and THEME_SET). External collaborators that live in
the syntect crate (grammar and theme parsers, the tokenizer, the two
renderers) are modelled from the specification, as marked on each such
definition.
-/

namespace Crayons

/-- A 24-bit color, as used by the terminal renderer. -/
structure Color where
  r : Nat
  g : Nat
  b : Nat
deriving DecidableEq

/-- Style attributes a theme attaches to a scope. -/
structure Style where
  fg : Color
  bg : Color
deriving DecidableEq

/-- Modelled from the spec: a Theme is a named mapping from scope names to
style attributes, immutable once loaded. The src field records the raw
bytes it was parsed from, so distinct definitions parse to distinct
themes. -/
structure Theme where
  src : List UInt8
  styles : List (String × Style)
  defStyle : Style
deriving DecidableEq

/-- A grammar (syntect SyntaxDefinition): a named language definition with
lookup tokens, a hidden flag, and a flag telling whether its patterns
expect line terminators in matched text. -/
structure Grammar where
  name : String
  tokens : List String
  hidden : Bool
  newlines : Bool
deriving DecidableEq

/-- The atoms ok and error, mirroring NifStatus in the source. -/
inductive NifStatus where
  | ok
  | error
deriving DecidableEq

/-- Error-kind atoms indicating which specific failure occurred, mirroring
ErrorKind in the source. -/
inductive ErrorKind where
  | unknownTheme
  | unknownFormat
  | invalidLangDefn
  | invalidThemeDefn
deriving DecidableEq

/-- Rustler NifError values returned through the NifResult error channel. -/
inductive NifError where
  | badArg
  | atom (a : String)
deriving DecidableEq

/-- BEAM terms produced by the encode calls in the source: strings, status
and kind atoms, 2- and 3-tuples, and lists of strings. -/
inductive Term where
  | str (s : String)
  | status (st : NifStatus)
  | kind (k : ErrorKind)
  | tuple2 (a b : Term)
  | tuple3 (a b c : Term)
  | strList (l : List String)
deriving DecidableEq

/-- Outcome of one operation: a returned BEAM term, a NifResult error
value, or a reached panic site (an expect in the source). -/
inductive Outcome where
  | ok (t : Term)
  | err (e : NifError)
  | panicked (msg : String)
deriving DecidableEq

/-- The process-wide state: the two catalogs plus the poisoned flag of the
lock protecting each one. SYNTAX_SET holds an Option so that add_lang can
take the set out while rebuilding it. -/
structure LibState where
  syntaxSet : Option (List Grammar)
  synPoisoned : Bool
  themeSet : List (String × Theme)
  thmPoisoned : Bool
deriving DecidableEq

/-- The NifError produced by the poison helper in the source. -/
def poison : NifError := NifError.atom "library_poisoned"

/- ---------------------------------------------------------------------
String utilities mirroring the Rust string operations used by color.
--------------------------------------------------------------------- -/

/-- Splitting a character list at every newline character, keeping empty
pieces, as String.splitOn does for a single separator. -/
def splitNL : List Char → List (List Char)
  | [] => [[]]
  | c :: cs =>
    if c = '\n' then [] :: splitNL cs
    else
      match splitNL cs with
      | [] => [[c]]
      | g :: gs => (c :: g) :: gs

/-- Dropping one trailing carriage return, as Rust lines does on pieces
that were terminated by a newline. -/
def stripCR (l : List Char) : List Char :=
  match l.getLast? with
  | some '\r' => l.dropLast
  | _ => l

/-- Modelling of Rust str lines on a character list: split at newlines, a
trailing line terminator produces no extra empty line, and a carriage
return directly before a line feed is stripped. -/
def rustLinesList (l : List Char) : List (List Char) :=
  let parts := splitNL l
  if parts.getLast? = some [] then (parts.dropLast).map stripCR
  else (parts.dropLast).map stripCR ++ [(parts.getLast?).getD []]

/-- Modelling of Rust str lines at the String level. -/
def rustLines (s : String) : List String :=
  (rustLinesList s.data).map String.mk

/-- Number of newline characters in a string. -/
def countNL (s : String) : Nat := s.data.count '\n'

/-- Joining with a separator, as Rust Vec join does. -/
def joinSep (sep : String) : List String → String
  | [] => ""
  | [x] => x
  | x :: xs => x ++ sep ++ joinSep sep xs

/-- Plain concatenation of a list of strings. -/
def concatAll : List String → String
  | [] => ""
  | x :: xs => x ++ concatAll xs

/-- Decimal digit characters. -/
def digitChar (n : Nat) : Char :=
  if n = 0 then '0' else if n = 1 then '1' else if n = 2 then '2'
  else if n = 3 then '3' else if n = 4 then '4' else if n = 5 then '5'
  else if n = 6 then '6' else if n = 7 then '7' else if n = 8 then '8'
  else '9'

/-- Fuel-driven decimal rendering of a natural number, most significant
digit first. -/
def natCharsAux : Nat → Nat → List Char
  | 0, _ => []
  | fuel + 1, n =>
    if n < 10 then [digitChar n]
    else natCharsAux fuel (n / 10) ++ [digitChar (n % 10)]

/-- Decimal rendering of a natural number as a string, used for the color
components of escape sequences. -/
def natStr (n : Nat) : String := String.mk (natCharsAux (n + 1) n)

/-- ASCII lower-casing of a string, character by character, mirroring the
Rust to_lowercase calls on grammar names. -/
def lowerStr (s : String) : String := String.mk (s.data.map Char.toLower)

/- ---------------------------------------------------------------------
Tokenizer and renderers. These live in the syntect crate, outside the
repository; they are modelled from the specification.
--------------------------------------------------------------------- -/

/-- The context stack of one highlight session: the tokenizer state
carried across lines within one call, never across calls. -/
def ParseState : Type := List String

/-- The initial context stack a fresh HighlightLines session starts from. -/
def initialStack : ParseState := []

/-- Character class used by the heuristic lexical chunking. -/
def chClass (c : Char) : Bool := c.isAlphanum

/-- Modelled from the spec: heuristic lexical tokenization splits a line
into maximal runs of characters of one class; the runs, in order, cover
the whole line. -/
def chunks : List Char → List (List Char)
  | [] => []
  | c :: rest =>
    match chunks rest with
    | [] => [[c]]
    | [] :: gs => [c] :: [] :: gs
    | (d :: g) :: gs =>
      if chClass c = chClass d then (c :: d :: g) :: gs
      else [c] :: (d :: g) :: gs

/-- Scope annotation attached to one run of characters. -/
def scopeOfRun (g : Grammar) (r : List Char) : String :=
  match r with
  | [] => "text.plain"
  | c :: _ => if chClass c then lowerStr g.name ++ ".entity" else lowerStr g.name ++ ".punctuation"

/-- Style a theme resolves for a scope, falling back to the default style. -/
def styleFor (th : Theme) (scope : String) : Style :=
  match th.styles.lookup scope with
  | some st => st
  | none => th.defStyle

/-- Modelled from the spec: the tokenizer produces, for each line, an
ordered sequence of styled spans covering every character of the line,
threading the context stack of the session. -/
def highlightLine (g : Grammar) (th : Theme) (st : ParseState) (line : String) :
    ParseState × List (Style × String) :=
  (st, (chunks line.data).map (fun r => (styleFor th (scopeOfRun g r), String.mk r)))

/-- Running the tokenizer over the lines of one text in order, threading
the context stack from each line to the next. -/
def runHighlight (g : Grammar) (th : Theme) : ParseState → List String → List (List (Style × String))
  | _, [] => []
  | st, line :: rest =>
    let p := highlightLine g th st line
    p.2 :: runHighlight g th p.1 rest

/-- Escape-sequence head selecting the foreground color. -/
def fgHead : String := "\x1b[38;2;"

/-- Escape-sequence head selecting the background color. -/
def bgHead : String := "\x1b[48;2;"

/-- The reset-to-default escape sequence appended at the end of terminal
output. -/
def resetSeq : String := "\x1b[0m"

/-- A 24-bit color escape sequence. -/
def escSeq (head : String) (c : Color) : String :=
  head ++ natStr c.r ++ ";" ++ natStr c.g ++ ";" ++ natStr c.b ++ "m"

/-- Escaped form of one span: optional background reset, foreground color,
then the span text. -/
def spanEscaped (bgReset : Bool) (sp : Style × String) : String :=
  (if bgReset then escSeq bgHead sp.1.bg else "") ++ escSeq fgHead sp.1.fg ++ sp.2

/-- Modelled from the spec: syntect as_24_bit_terminal_escaped converts the
spans of one line into 24-bit color escape sequences; the flag asks it to
always reset the background between spans. -/
def as24BitTerminalEscaped (spans : List (Style × String)) (bgReset : Bool) : String :=
  concatAll (spans.map (spanEscaped bgReset))

/-- The terminal rendering pipeline of color: highlight each line, escape
it, join the per-line segments with single newlines, and append the reset
sequence, exactly as the terminal arm of the source does. -/
def terminalRender (g : Grammar) (th : Theme) (text : String) : String :=
  joinSep "\n"
      ((runHighlight g th initialStack (rustLines text)).map
        (fun spans => as24BitTerminalEscaped spans true))
    ++ resetSeq

/-- Markup form of one span. -/
def spanMarkup (sp : Style × String) : String :=
  "<span style=\"color:rgb(" ++ natStr sp.1.fg.r ++ "," ++ natStr sp.1.fg.g ++ ","
    ++ natStr sp.1.fg.b ++ ")\">" ++ sp.2 ++ "</span>"

/-- Modelled from the spec: syntect highlighted_html_for_string emits one
markup document wrapping spans in style-carrying elements resolved from
the theme. -/
def highlightedHtmlForString (text : String) (_ss : List Grammar) (g : Grammar) (th : Theme) :
    String :=
  let body :=
    concatAll ((runHighlight g th initialStack (rustLines text)).map
      (fun spans => concatAll (spans.map spanMarkup) ++ "\n"))
  "<pre style=\"background-color:rgb(" ++ natStr th.defStyle.bg.r ++ ","
    ++ natStr th.defStyle.bg.g ++ "," ++ natStr th.defStyle.bg.b ++ ")\">"
    ++ body ++ "</pre>"

/- ---------------------------------------------------------------------
Catalog primitives and the external parsers.
--------------------------------------------------------------------- -/

/-- Exact-name lookup in the theme catalog, mirroring BTreeMap get. -/
def lookupTheme : List (String × Theme) → String → Option Theme
  | [], _ => none
  | (k, v) :: rest, n => if k = n then some v else lookupTheme rest n

/-- Upsert into the theme catalog, mirroring BTreeMap insert: an existing
key has its value replaced in place, a new key is appended. -/
def insertTheme : List (String × Theme) → String → Theme → List (String × Theme)
  | [], n, t => [(n, t)]
  | (k, v) :: rest, n, t =>
    if k = n then (n, t) :: rest else (k, v) :: insertTheme rest n t

/-- Modelled from the spec: find_syntax_by_token resolves a language token
to the best-matching grammar — exact name match first, else token match,
case-insensitive; not finding one is not an error. -/
def findSyntaxByToken (ss : List Grammar) (tok : String) : Option Grammar :=
  match ss.find? (fun g => lowerStr g.name = lowerStr tok) with
  | some g => some g
  | none => ss.find? (fun g => g.tokens.contains (lowerStr tok))

/-- Modelled from the spec: the syntect grammar parser
SyntaxDefinition::load_from_str. Parse failures carry a human-readable
diagnostic; success yields a grammar whose name is the supplied override
or the declared first line, with a hidden marker recognised in the body. -/
def loadSyntaxFromStr (content : String) (inclNewline : Bool) (name : Option String) :
    Except String Grammar :=
  if content = "" then Except.error "EOF while parsing a value"
  else
    let declared := ((rustLines content).headD "untitled")
    let nm := name.getD declared
    Except.ok
      { name := nm
        tokens := [lowerStr nm]
        hidden := (rustLines content).contains "hidden: true"
        newlines := inclNewline }

/-- Modelled from the spec: the syntect theme parser
ThemeSet::load_from_reader over the supplied bytes. Parse failures carry a
diagnostic; success yields a theme remembering its source bytes. -/
def loadThemeFromBytes (bytes : List UInt8) : Except String Theme :=
  if bytes = [] then Except.error "unexpected EOF reading theme"
  else
    Except.ok
      { src := bytes
        styles := []
        defStyle :=
          { fg := { r := (bytes.headD 0).toNat, g := 0, b := 0 }
            bg := { r := 0, g := 0, b := 0 } } }

/-- A built-in grammar. -/
def rustGrammar : Grammar :=
  { name := "Rust", tokens := ["rs", "rust"], hidden := false, newlines := false }

/-- Another built-in grammar. -/
def markdownGrammar : Grammar :=
  { name := "Markdown", tokens := ["md", "markdown"], hidden := false, newlines := false }

/-- A hidden built-in grammar, as the default set ships one. -/
def plainTextGrammar : Grammar :=
  { name := "Plain Text", tokens := ["txt"], hidden := true, newlines := false }

/-- Modelled from the spec: the built-in grammar set loaded by
SyntaxSet::load_defaults_nonewlines at initialization. -/
def defaultSyntaxes : List Grammar :=
  [rustGrammar, markdownGrammar, plainTextGrammar]

/-- A built-in theme. -/
def oceanDark : Theme :=
  { src := []
    styles :=
      [ ("rust.entity", { fg := { r := 191, g := 97, b := 106 }
                          bg := { r := 43, g := 48, b := 59 } })
      , ("rust.punctuation", { fg := { r := 192, g := 197, b := 206 }
                               bg := { r := 43, g := 48, b := 59 } }) ]
    defStyle := { fg := { r := 192, g := 197, b := 206 }
                  bg := { r := 43, g := 48, b := 59 } } }

/-- Another built-in theme. -/
def inspiredGitHub : Theme :=
  { src := []
    styles := []
    defStyle := { fg := { r := 51, g := 51, b := 51 }
                  bg := { r := 255, g := 255, b := 255 } } }

/-- Modelled from the spec: the built-in theme set loaded by
ThemeSet::load_defaults at initialization. -/
def defaultThemes : List (String × Theme) :=
  [("InspiredGitHub", inspiredGitHub), ("base16-ocean.dark", oceanDark)]

/-- The library state right after initialization of the two lazy statics. -/
def initState : LibState :=
  { syntaxSet := some defaultSyntaxes
    synPoisoned := false
    themeSet := defaultThemes
    thmPoisoned := false }

/- ---------------------------------------------------------------------
The five public operations, one per NIF in the source. Each takes the
current library state and returns the state it leaves behind together
with the outcome handed to the caller. Argument decoding happens in the
host binding before the engine runs and is outside this model.
--------------------------------------------------------------------- -/

/-- Embedding of the color NIF: resolve the theme, resolve the language
(absence degrades to pass-through), then dispatch on the format atom. -/
def color (s : LibState) (text lang fmt theme : String) : LibState × Outcome :=
  if s.thmPoisoned then (s, Outcome.err poison)
  else if s.synPoisoned then (s, Outcome.err poison)
  else
    match lookupTheme s.themeSet theme with
    | none => (s, Outcome.ok (Term.tuple2 (Term.status NifStatus.error) (Term.kind ErrorKind.unknownTheme)))
    | some th =>
      match s.syntaxSet with
      | none => (s, Outcome.panicked "a read lock cannot observe an empty syntax set")
      | some ss =>
        match findSyntaxByToken ss lang with
        | none => (s, Outcome.ok (Term.tuple2 (Term.status NifStatus.ok) (Term.str text)))
        | some syn =>
          if fmt = "html" then
            (s, Outcome.ok (Term.tuple2 (Term.status NifStatus.ok)
              (Term.str (highlightedHtmlForString text ss syn th))))
          else if fmt = "terminal" then
            (s, Outcome.ok (Term.tuple2 (Term.status NifStatus.ok)
              (Term.str (terminalRender syn th text))))
          else (s, Outcome.ok (Term.tuple2 (Term.status NifStatus.error) (Term.kind ErrorKind.unknownFormat)))

/-- Embedding of the add_lang NIF: parse first; on success take the syntax
set under the write lock, rebuild it with the new grammar appended, and
store it back; on parse failure return the typed error with the parser
diagnostic and touch nothing. -/
def add_lang (s : LibState) (content : String) (name : Option String) (inclNewline : Bool) :
    LibState × Outcome :=
  match loadSyntaxFromStr content inclNewline name with
  | Except.ok syn =>
    if s.synPoisoned then (s, Outcome.err poison)
    else
      let base := s.syntaxSet.getD defaultSyntaxes
      ({ s with syntaxSet := some (base ++ [syn]) },
        Outcome.ok (Term.tuple2 (Term.status NifStatus.ok) (Term.str syn.name)))
  | Except.error e =>
    (s, Outcome.ok (Term.tuple3 (Term.status NifStatus.error)
      (Term.kind ErrorKind.invalidLangDefn) (Term.str e)))

/-- Embedding of the add_theme NIF: parse the bytes first; on success
upsert the theme under the write lock; on parse failure return the typed
error with the parser diagnostic and touch nothing. -/
def add_theme (s : LibState) (bytes : List UInt8) (name : String) : LibState × Outcome :=
  match loadThemeFromBytes bytes with
  | Except.ok th =>
    if s.thmPoisoned then (s, Outcome.err poison)
    else
      ({ s with themeSet := insertTheme s.themeSet name th },
        Outcome.ok (Term.tuple2 (Term.status NifStatus.ok) (Term.str name)))
  | Except.error e =>
    (s, Outcome.ok (Term.tuple3 (Term.status NifStatus.error)
      (Term.kind ErrorKind.invalidThemeDefn) (Term.str e)))

/-- Embedding of the list_langs NIF: the lower-cased names of all
non-hidden grammars, in catalog order. -/
def list_langs (s : LibState) : LibState × Outcome :=
  if s.synPoisoned then (s, Outcome.err poison)
  else
    match s.syntaxSet with
    | none => (s, Outcome.panicked "a read lock can never observe an empty SyntaxSet")
    | some ss =>
      (s, Outcome.ok (Term.strList ((ss.filter (fun g => !g.hidden)).map (fun g => lowerStr g.name))))

/-- Embedding of the list_themes NIF: all theme names in catalog order. -/
def list_themes (s : LibState) : LibState × Outcome :=
  if s.thmPoisoned then (s, Outcome.err poison)
  else (s, Outcome.ok (Term.strList (s.themeSet.map Prod.fst)))

/-- States reachable from initialization through the mutating operations,
allowing an external fault to poison either lock at any point. -/
inductive Reachable : LibState → Prop where
  | init : Reachable initState
  | addLang (s : LibState) (c : String) (n : Option String) (b : Bool) :
      Reachable s → Reachable (add_lang s c n b).1
  | addTheme (s : LibState) (bytes : List UInt8) (n : String) :
      Reachable s → Reachable (add_theme s bytes n).1
  | fault (s : LibState) (b1 b2 : Bool) :
      Reachable s → Reachable { s with synPoisoned := b1, thmPoisoned := b2 }

/-- Outcome shape the spec promises: a returned term, or the distinct
library_poisoned error value, never a reached panic site. -/
def isStructured (o : Outcome) : Prop :=
  (∃ t, o = Outcome.ok t) ∨ o = Outcome.err poison

/-- The grammar the toy parser yields for the registration exercised by
the witnesses. -/
def fooGrammar : Grammar :=
  { name := "Foo", tokens := ["foo"], hidden := false, newlines := false }

/-- The theme the toy parser yields for the single byte 7. -/
def sampleTheme : Theme :=
  { src := [7]
    styles := []
    defStyle := { fg := { r := 7, g := 0, b := 0 }, bg := { r := 0, g := 0, b := 0 } } }

/- ---------------------------------------------------------------------
Helper lemmas about newline counting in the terminal pipeline.
--------------------------------------------------------------------- -/

theorem data_append (a b : String) : (a ++ b).data = a.data ++ b.data := rfl

theorem countNL_append (a b : String) : countNL (a ++ b) = countNL a + countNL b := by
  unfold countNL
  rw [data_append, List.count_append]

theorem countNL_mk (l : List Char) : countNL (String.mk l) = l.count '\n' := rfl

theorem splitNL_count (l : List Char) : ∀ p ∈ splitNL l, p.count '\n' = 0 := by
  induction l with
  | nil =>
    intro p hp
    simp only [splitNL, List.mem_singleton] at hp
    subst hp
    rfl
  | cons c cs ih =>
    intro p hp
    by_cases hc : c = '\n'
    · subst hc
      simp only [splitNL, if_true, ite_true, List.mem_cons] at hp
      rcases hp with hp | hp
      · subst hp; rfl
      · exact ih p hp
    · rcases hsplit : splitNL cs with _ | ⟨g, gs⟩
      · simp only [splitNL, if_neg hc, hsplit, List.mem_singleton] at hp
        subst hp
        simp [List.count_cons, hc]
      · simp only [splitNL, if_neg hc, hsplit, List.mem_cons] at hp
        rcases hp with hp | hp
        · subst hp
          have hg : g.count '\n' = 0 := by
            apply ih
            rw [hsplit]
            exact List.mem_cons_self _ _
          simp [List.count_cons, hc, hg]
        · apply ih
          rw [hsplit]
          exact List.mem_cons_of_mem _ hp

theorem count_le_flatten (L : List (List Char)) (p : List Char) (hp : p ∈ L) (c : Char) :
    p.count c ≤ (L.flatten).count c := by
  induction L with
  | nil => cases hp
  | cons x xs ih =>
    rw [List.flatten_cons, List.count_append]
    rcases List.mem_cons.mp hp with rfl | hp
    · exact Nat.le_add_right _ _
    · exact (ih hp).trans (Nat.le_add_left _ _)

theorem stripCR_count_le (l : List Char) (c : Char) : (stripCR l).count c ≤ l.count c := by
  unfold stripCR
  rcases l.getLast? with _ | ch
  · exact Nat.le_refl _
  · rcases h : decide (ch = '\r') with _ | _
    · simp only [decide_eq_false_iff_not] at h
      split
      · exact (List.dropLast_sublist _).count_le c
      · exact Nat.le_refl _
    · simp only [decide_eq_true_eq] at h
      subst h
      exact (List.dropLast_sublist _).count_le c

theorem rustLinesList_count (l : List Char) : ∀ p ∈ rustLinesList l, p.count '\n' = 0 := by
  intro p hp
  simp only [rustLinesList] at hp
  have hmem_drop : ∀ q ∈ ((splitNL l).dropLast).map stripCR, q.count '\n' = 0 := by
    intro q hq
    rcases List.mem_map.mp hq with ⟨r, hr, rfl⟩
    have hr2 : r ∈ splitNL l := (List.dropLast_sublist _).subset hr
    have := splitNL_count l r hr2
    exact Nat.le_zero.mp (this ▸ stripCR_count_le r '\n')
  split at hp
  · exact hmem_drop p hp
  · rcases List.mem_append.mp hp with hp | hp
    · exact hmem_drop p hp
    · rw [List.mem_singleton] at hp
      subst hp
      rcases hlast : (splitNL l).getLast? with _ | q
      · rfl
      · have hq : q ∈ splitNL l := List.mem_of_mem_getLast? hlast
        simp [hlast, splitNL_count l q hq]

theorem rustLines_countNL (s : String) : ∀ line ∈ rustLines s, countNL line = 0 := by
  intro line hline
  rcases List.mem_map.mp hline with ⟨p, hp, rfl⟩
  rw [countNL_mk]
  exact rustLinesList_count s.data p hp

theorem digitChar_ne_nl (n : Nat) : digitChar n ≠ '\n' := by
  unfold digitChar
  repeat' split
  all_goals decide

theorem natCharsAux_count (fuel n : Nat) : (natCharsAux fuel n).count '\n' = 0 := by
  induction fuel generalizing n with
  | zero => rfl
  | succ f ih =>
    unfold natCharsAux
    split
    · simp [List.count_cons, digitChar_ne_nl n]
    · rw [List.count_append, ih]
      simp [List.count_cons, digitChar_ne_nl (n % 10)]

theorem countNL_natStr (n : Nat) : countNL (natStr n) = 0 := by
  rw [natStr, countNL_mk]
  exact natCharsAux_count _ _

theorem countNL_semi : countNL ";" = 0 := by decide

theorem countNL_m : countNL "m" = 0 := by decide

theorem countNL_fgHead : countNL fgHead = 0 := by decide

theorem countNL_bgHead : countNL bgHead = 0 := by decide

theorem countNL_reset : countNL resetSeq = 0 := by decide

theorem countNL_escSeq (head : String) (c : Color) (hh : countNL head = 0) :
    countNL (escSeq head c) = 0 := by
  unfold escSeq
  rw [countNL_append, countNL_append, countNL_append, countNL_append, countNL_append,
    countNL_append]
  rw [hh, countNL_natStr, countNL_natStr, countNL_natStr, countNL_semi, countNL_m]

theorem countNL_spanEscaped (b : Bool) (sp : Style × String) (h : countNL sp.2 = 0) :
    countNL (spanEscaped b sp) = 0 := by
  unfold spanEscaped
  rw [countNL_append, countNL_append]
  rw [countNL_escSeq _ _ countNL_fgHead, h]
  cases b
  · rfl
  · simp [countNL_escSeq _ _ countNL_bgHead]

theorem countNL_concatAll (l : List String) (h : ∀ x ∈ l, countNL x = 0) :
    countNL (concatAll l) = 0 := by
  induction l with
  | nil => rfl
  | cons x xs ih =>
    rw [concatAll, countNL_append, h x (List.mem_cons_self _ _),
      ih (fun y hy => h y (List.mem_cons_of_mem _ hy))]

theorem countNL_as24 (spans : List (Style × String)) (b : Bool)
    (h : ∀ sp ∈ spans, countNL sp.2 = 0) :
    countNL (as24BitTerminalEscaped spans b) = 0 := by
  unfold as24BitTerminalEscaped
  apply countNL_concatAll
  intro x hx
  rcases List.mem_map.mp hx with ⟨sp, hsp, rfl⟩
  exact countNL_spanEscaped b sp (h sp hsp)

theorem chunks_flatten (l : List Char) : (chunks l).flatten = l := by
  induction l with
  | nil => rfl
  | cons c cs ih =>
    rcases h : chunks cs with _ | ⟨g, gs⟩
    · rw [h] at ih
      simp only [List.flatten_nil] at ih
      simp [chunks, h, ih.symm]
    · rcases g with _ | ⟨d, g⟩
      · rw [h] at ih
        simp only [chunks, h]
        simpa using ih
      · rw [h] at ih
        simp only [chunks, h]
        split
        · simpa using ih
        · simpa using ih

theorem highlightLine_spans_count (g : Grammar) (th : Theme) (st : ParseState) (line : String)
    (hline : countNL line = 0) :
    ∀ sp ∈ (highlightLine g th st line).2, countNL sp.2 = 0 := by
  intro sp hsp
  simp only [highlightLine] at hsp
  rcases List.mem_map.mp hsp with ⟨r, hr, rfl⟩
  rw [countNL_mk]
  have hle := count_le_flatten (chunks line.data) r hr '\n'
  rw [chunks_flatten] at hle
  unfold countNL at hline
  omega

theorem runHighlight_length (g : Grammar) (th : Theme) (st : ParseState) (ls : List String) :
    (runHighlight g th st ls).length = ls.length := by
  induction ls generalizing st with
  | nil => rfl
  | cons x xs ih => simp [runHighlight, ih]

theorem runHighlight_mem (g : Grammar) (th : Theme) (st : ParseState) (ls : List String)
    (sl : List (Style × String)) (h : sl ∈ runHighlight g th st ls) :
    ∃ st2 line, line ∈ ls ∧ sl = (highlightLine g th st2 line).2 := by
  induction ls generalizing st with
  | nil => cases h
  | cons x xs ih =>
    simp only [runHighlight, List.mem_cons] at h
    rcases h with h | h
    · exact ⟨st, x, List.mem_cons_self _ _, h⟩
    · obtain ⟨st2, line, hmem, heq⟩ := ih _ h
      exact ⟨st2, line, List.mem_cons_of_mem _ hmem, heq⟩

theorem countNL_nlSep : countNL "\n" = 1 := by decide

theorem countNL_joinSep : ∀ (l : List String), (∀ s ∈ l, countNL s = 0) →
    countNL (joinSep "\n" l) = l.length - 1
  | [], _ => by decide
  | [x], h => by
    rw [joinSep, h x (List.mem_singleton.mpr rfl)]
    simp
  | x :: y :: ys, h => by
    have hx := h x (List.mem_cons_self _ _)
    have ih := countNL_joinSep (y :: ys) (fun s hs => h s (List.mem_cons_of_mem _ hs))
    show countNL (x ++ "\n" ++ joinSep "\n" (y :: ys)) = (x :: y :: ys).length - 1
    rw [countNL_append, countNL_append, hx, countNL_nlSep, ih]
    simp only [List.length_cons]
    omega

theorem terminalRender_count (g : Grammar) (th : Theme) (text : String) :
    countNL (terminalRender g th text) = (rustLines text).length - 1 := by
  unfold terminalRender
  rw [countNL_append, countNL_reset]
  have hsegs : ∀ seg ∈ (runHighlight g th initialStack (rustLines text)).map
      (fun spans => as24BitTerminalEscaped spans true), countNL seg = 0 := by
    intro seg hseg
    rcases List.mem_map.mp hseg with ⟨spans, hspans, rfl⟩
    obtain ⟨st2, line, hline, rfl⟩ := runHighlight_mem g th initialStack (rustLines text) spans hspans
    exact countNL_as24 _ true
      (highlightLine_spans_count g th st2 line (rustLines_countNL text line hline))
  rw [countNL_joinSep _ hsegs, List.length_map, runHighlight_length, Nat.add_zero]

theorem terminalRender_endsWith (g : Grammar) (th : Theme) (text : String) :
    ∃ p, terminalRender g th text = p ++ resetSeq :=
  ⟨_, rfl⟩

/- ---------------------------------------------------------------------
Helper lemmas about the catalogs and reachable states.
--------------------------------------------------------------------- -/

theorem lookupTheme_insertTheme_self (l : List (String × Theme)) (n : String) (t : Theme) :
    lookupTheme (insertTheme l n t) n = some t := by
  induction l with
  | nil => simp [insertTheme, lookupTheme]
  | cons kv rest ih =>
    rcases kv with ⟨k, v⟩
    by_cases hk : k = n
    · subst hk
      simp [insertTheme, lookupTheme]
    · simp [insertTheme, lookupTheme, hk, ih]

theorem insertTheme_length_of_mem (l : List (String × Theme)) (n : String) (t told : Theme)
    (h : lookupTheme l n = some told) : (insertTheme l n t).length = l.length := by
  induction l with
  | nil => simp [lookupTheme] at h
  | cons kv rest ih =>
    rcases kv with ⟨k, v⟩
    by_cases hk : k = n
    · subst hk
      simp [insertTheme]
    · simp only [lookupTheme, if_neg hk] at h
      simp [insertTheme, hk, ih h]

theorem add_theme_syntaxSet (s : LibState) (bytes : List UInt8) (n : String) :
    (add_theme s bytes n).1.syntaxSet = s.syntaxSet := by
  unfold add_theme
  rcases loadThemeFromBytes bytes with e | th
  · rfl
  · by_cases hp : s.thmPoisoned
    · simp [hp]
    · simp [hp]

theorem add_lang_isSome (s : LibState) (c : String) (n : Option String) (b : Bool)
    (h : s.syntaxSet.isSome = true) : (add_lang s c n b).1.syntaxSet.isSome = true := by
  unfold add_lang
  rcases loadSyntaxFromStr c b n with e | syn
  · exact h
  · by_cases hp : s.synPoisoned
    · simp [hp, h]
    · simp [hp]

theorem reachable_isSome (s : LibState) (h : Reachable s) : s.syntaxSet.isSome = true := by
  induction h with
  | init => rfl
  | addLang s c n b _ ih => exact add_lang_isSome s c n b ih
  | addTheme s bytes n _ ih => rw [add_theme_syntaxSet]; exact ih
  | fault s b1 b2 _ ih => exact ih

theorem color_structured (s : LibState) (text lang fmt theme : String)
    (h : s.syntaxSet.isSome = true) : isStructured (color s text lang fmt theme).2 := by
  unfold color
  repeat' split
  all_goals simp_all [isStructured]

theorem list_langs_structured (s : LibState) (h : s.syntaxSet.isSome = true) :
    isStructured (list_langs s).2 := by
  unfold list_langs
  by_cases h2 : s.synPoisoned
  · simp [h2, isStructured]
  · simp only [h2, Bool.false_eq_true, ite_false]
    rcases hss : s.syntaxSet with _ | ss
    · rw [hss] at h; cases h
    · exact Or.inl ⟨_, rfl⟩

theorem add_lang_structured (s : LibState) (c : String) (n : Option String) (b : Bool) :
    isStructured (add_lang s c n b).2 := by
  unfold add_lang
  rcases loadSyntaxFromStr c b n with e | syn
  · exact Or.inl ⟨_, rfl⟩
  · by_cases hp : s.synPoisoned
    · simp [hp, isStructured]
    · simp [hp, isStructured]

theorem add_theme_structured (s : LibState) (bytes : List UInt8) (n : String) :
    isStructured (add_theme s bytes n).2 := by
  unfold add_theme
  rcases loadThemeFromBytes bytes with e | th
  · exact Or.inl ⟨_, rfl⟩
  · by_cases hp : s.thmPoisoned
    · simp [hp, isStructured]
    · simp [hp, isStructured]

theorem list_themes_structured (s : LibState) : isStructured (list_themes s).2 := by
  unfold list_themes
  by_cases hp : s.thmPoisoned
  · simp [hp, isStructured]
  · simp [hp, isStructured]

theorem color_state_id (s : LibState) (text lang fmt theme : String) :
    (color s text lang fmt theme).1 = s := by
  unfold color
  repeat' split
  all_goals rfl

/- ---------------------------------------------------------------------
Claim theorems.
--------------------------------------------------------------------- -/

/-- C1: for every text T, every language token that resolves to no grammar
in the Grammar Catalog, every format, and every theme name present in the
Theme Catalog, highlight returns T unchanged byte for byte with a success
status rather than an error. -/
theorem claim_C1_unknown_language_passthrough (s : LibState) (ss : List Grammar) (th : Theme)
    (text lang fmt theme : String)
    (h1 : s.thmPoisoned = false) (h2 : s.synPoisoned = false)
    (h3 : lookupTheme s.themeSet theme = some th)
    (h4 : s.syntaxSet = some ss)
    (h5 : findSyntaxByToken ss lang = none) :
    (color s text lang fmt theme).2
      = Outcome.ok (Term.tuple2 (Term.status NifStatus.ok) (Term.str text)) := by
  simp [color, h1, h2, h3, h4, h5]

/-- C1 witness: a concrete unknown language passes a concrete text through
unchanged under the built-in theme, for an arbitrary format token. -/
theorem claim_C1_witness :
    (color initState "fn main()" "nonexistent-lang-xyz" "xml" "base16-ocean.dark").2
      = Outcome.ok (Term.tuple2 (Term.status NifStatus.ok) (Term.str "fn main()")) :=
  claim_C1_unknown_language_passthrough initState defaultSyntaxes oceanDark
    "fn main()" "nonexistent-lang-xyz" "xml" "base16-ocean.dark"
    rfl rfl (by decide) rfl (by decide)

/-- C2 counterexample: the claim quantifies over every language, but with
a valid theme, an unknown language, and the unsupported format xml the
call does not fail with UnknownFormat — it succeeds with the original
text, because language resolution short-circuits before format dispatch. -/
theorem claim_C2_counterexample :
    lookupTheme initState.themeSet "base16-ocean.dark" = some oceanDark
    ∧ (color initState "some text" "no-such-lang" "xml" "base16-ocean.dark").2
        = Outcome.ok (Term.tuple2 (Term.status NifStatus.ok) (Term.str "some text"))
    ∧ (color initState "some text" "no-such-lang" "xml" "base16-ocean.dark").2
        ≠ Outcome.ok (Term.tuple2 (Term.status NifStatus.error) (Term.kind ErrorKind.unknownFormat)) := by
  refine ⟨by decide, by decide, by decide⟩

/-- C2 as amended: for every valid text, every language that resolves to a
grammar in the Grammar Catalog, and every theme name present in the Theme
Catalog, a format that is neither of the two recognized rendering
strategies fails with UnknownFormat. -/
theorem claim_C2_amended_unknown_format (s : LibState) (ss : List Grammar) (th : Theme)
    (syn : Grammar) (text lang fmt theme : String)
    (h1 : s.thmPoisoned = false) (h2 : s.synPoisoned = false)
    (h3 : lookupTheme s.themeSet theme = some th)
    (h4 : s.syntaxSet = some ss)
    (h5 : findSyntaxByToken ss lang = some syn)
    (h6 : fmt ≠ "html") (h7 : fmt ≠ "terminal") :
    (color s text lang fmt theme).2
      = Outcome.ok (Term.tuple2 (Term.status NifStatus.error) (Term.kind ErrorKind.unknownFormat)) := by
  simp [color, h1, h2, h3, h4, h5, h6, h7]

/-- C2 amended witness: the format xml on a resolvable language fails with
UnknownFormat. -/
theorem claim_C2_amended_witness :
    (color initState "some text" "rust" "xml" "base16-ocean.dark").2
      = Outcome.ok (Term.tuple2 (Term.status NifStatus.error) (Term.kind ErrorKind.unknownFormat)) :=
  claim_C2_amended_unknown_format initState defaultSyntaxes oceanDark rustGrammar
    "some text" "rust" "xml" "base16-ocean.dark"
    rfl rfl (by decide) rfl (by decide) (by decide) (by decide)

/-- C3: every successful terminal-format highlight returns the rendered
string, which ends with the fixed reset-to-default escape sequence, and
whose per-line escaped segments are joined by exactly one newline less
than the number of input lines. -/
theorem claim_C3_terminal_output_shape (s : LibState) (ss : List Grammar) (th : Theme)
    (syn : Grammar) (text lang theme : String)
    (h1 : s.thmPoisoned = false) (h2 : s.synPoisoned = false)
    (h3 : lookupTheme s.themeSet theme = some th)
    (h4 : s.syntaxSet = some ss)
    (h5 : findSyntaxByToken ss lang = some syn) :
    (color s text lang "terminal" theme).2
      = Outcome.ok (Term.tuple2 (Term.status NifStatus.ok) (Term.str (terminalRender syn th text)))
    ∧ (∃ p, terminalRender syn th text = p ++ resetSeq)
    ∧ countNL (terminalRender syn th text) = (rustLines text).length - 1 := by
  refine ⟨?_, terminalRender_endsWith syn th text, terminalRender_count syn th text⟩
  simp [color, h1, h2, h3, h4, h5]

/-- C3 witness: a concrete two-line text highlighted for the terminal. -/
theorem claim_C3_witness :
    (color initState "ab\ncd" "rust" "terminal" "base16-ocean.dark").2
      = Outcome.ok (Term.tuple2 (Term.status NifStatus.ok)
          (Term.str (terminalRender rustGrammar oceanDark "ab\ncd")))
    ∧ (∃ p, terminalRender rustGrammar oceanDark "ab\ncd" = p ++ resetSeq)
    ∧ countNL (terminalRender rustGrammar oceanDark "ab\ncd")
        = (rustLines "ab\ncd").length - 1 :=
  claim_C3_terminal_output_shape initState defaultSyntaxes oceanDark rustGrammar
    "ab\ncd" "rust" "base16-ocean.dark" rfl rfl (by decide) rfl (by decide)

/-- C4: when the grammar source fails to parse, register_grammar returns
an InvalidGrammarDefinition error carrying the parser diagnostic, and the
whole library state — the Grammar Catalog included — is left unchanged. -/
theorem claim_C4_invalid_grammar_no_mutation (s : LibState) (c : String) (n : Option String)
    (b : Bool) (e : String)
    (h : loadSyntaxFromStr c b n = Except.error e) :
    (add_lang s c n b).1 = s
    ∧ (add_lang s c n b).2
        = Outcome.ok (Term.tuple3 (Term.status NifStatus.error)
            (Term.kind ErrorKind.invalidLangDefn) (Term.str e)) := by
  unfold add_lang
  rw [h]
  exact ⟨rfl, rfl⟩

/-- C4 witness: empty grammar source fails with the parser diagnostic and
mutates nothing. -/
theorem claim_C4_witness :
    (add_lang initState "" none false).1 = initState
    ∧ (add_lang initState "" none false).2
        = Outcome.ok (Term.tuple3 (Term.status NifStatus.error)
            (Term.kind ErrorKind.invalidLangDefn) (Term.str "EOF while parsing a value")) :=
  claim_C4_invalid_grammar_no_mutation initState "" none false
    "EOF while parsing a value" rfl

/-- C5: registering a theme under a name already present in the Theme
Catalog replaces the prior theme for that name rather than adding a second
entry: the stored theme for that name changes, and the number of names
returned by list_themes is unchanged. -/
theorem claim_C5_theme_upsert_replaces (s : LibState) (bytes : List UInt8) (name : String)
    (th told : Theme)
    (h1 : s.thmPoisoned = false)
    (h2 : loadThemeFromBytes bytes = Except.ok th)
    (h3 : lookupTheme s.themeSet name = some told)
    (h4 : th ≠ told) :
    lookupTheme (add_theme s bytes name).1.themeSet name = some th
    ∧ lookupTheme (add_theme s bytes name).1.themeSet name ≠ lookupTheme s.themeSet name
    ∧ ∃ L L', (list_themes s).2 = Outcome.ok (Term.strList L)
        ∧ (list_themes (add_theme s bytes name).1).2 = Outcome.ok (Term.strList L')
        ∧ L'.length = L.length := by
  have hstate : (add_theme s bytes name).1 = { s with themeSet := insertTheme s.themeSet name th } := by
    unfold add_theme
    rw [h2]
    simp [h1]
  refine ⟨?_, ?_, ?_⟩
  · rw [hstate]
    exact lookupTheme_insertTheme_self _ _ _
  · rw [hstate, h3]
    show lookupTheme (insertTheme s.themeSet name th) name ≠ some told
    rw [lookupTheme_insertTheme_self]
    simp [h4]
  · refine ⟨s.themeSet.map Prod.fst, (insertTheme s.themeSet name th).map Prod.fst, ?_, ?_, ?_⟩
    · simp [list_themes, h1]
    · rw [hstate]
      simp [list_themes, h1]
    · rw [List.length_map, List.length_map, insertTheme_length_of_mem _ _ _ told h3]

/-- C5 witness: re-registering base16-ocean.dark from one byte of content
replaces the stored theme and keeps the number of theme names fixed. -/
theorem claim_C5_witness :
    lookupTheme (add_theme initState [7] "base16-ocean.dark").1.themeSet "base16-ocean.dark"
        = some sampleTheme
    ∧ lookupTheme (add_theme initState [7] "base16-ocean.dark").1.themeSet "base16-ocean.dark"
        ≠ lookupTheme initState.themeSet "base16-ocean.dark"
    ∧ ∃ L L', (list_themes initState).2 = Outcome.ok (Term.strList L)
        ∧ (list_themes (add_theme initState [7] "base16-ocean.dark").1).2
            = Outcome.ok (Term.strList L')
        ∧ L'.length = L.length :=
  claim_C5_theme_upsert_replaces initState [7] "base16-ocean.dark" sampleTheme oceanDark
    rfl rfl (by decide) (by decide)

/-- C6: after a successful register_grammar call, list_grammars contains
the resolved name lower-cased unless the grammar is hidden, and every
listed name is the lower-cased name of some non-hidden grammar of the
rebuilt catalog. -/
theorem claim_C6_roundtrip_listing (s : LibState) (ss : List Grammar) (c : String)
    (n : Option String) (b : Bool) (syn : Grammar)
    (h1 : s.synPoisoned = false)
    (h2 : loadSyntaxFromStr c b n = Except.ok syn)
    (h3 : s.syntaxSet = some ss) :
    ∃ L, (list_langs (add_lang s c n b).1).2 = Outcome.ok (Term.strList L)
      ∧ (syn.hidden = false → lowerStr syn.name ∈ L)
      ∧ (∀ x ∈ L, ∃ g, g ∈ ss ++ [syn] ∧ g.hidden = false ∧ x = lowerStr g.name) := by
  have hstate : (add_lang s c n b).1 = { s with syntaxSet := some (ss ++ [syn]) } := by
    unfold add_lang
    rw [h2]
    simp [h1, h3]
  refine ⟨((ss ++ [syn]).filter (fun g => !g.hidden)).map (fun g => lowerStr g.name), ?_, ?_, ?_⟩
  · rw [hstate]
    simp [list_langs, h1]
  · intro hh
    apply List.mem_map.mpr
    refine ⟨syn, List.mem_filter.mpr ⟨List.mem_append.mpr (Or.inr (List.mem_singleton.mpr rfl)), ?_⟩, rfl⟩
    simp [hh]
  · intro x hx
    rcases List.mem_map.mp hx with ⟨g, hg, rfl⟩
    rcases List.mem_filter.mp hg with ⟨hmem, hhid⟩
    exact ⟨g, hmem, by simpa using hhid, rfl⟩

/-- C6 witness: registering a visible grammar named Foo makes foo appear
in the listing, and every listed name is a lower-cased non-hidden name. -/
theorem claim_C6_witness :
    ∃ L, (list_langs (add_lang initState "MyLang" (some "Foo") false).1).2
        = Outcome.ok (Term.strList L)
      ∧ (fooGrammar.hidden = false → lowerStr fooGrammar.name ∈ L)
      ∧ (∀ x ∈ L, ∃ g, g ∈ defaultSyntaxes ++ [fooGrammar] ∧ g.hidden = false
          ∧ x = lowerStr g.name) :=
  claim_C6_roundtrip_listing initState defaultSyntaxes "MyLang" (some "Foo") false fooGrammar
    rfl rfl rfl

/-- C7: a highlight call whose theme name is not present in the Theme
Catalog fails with UnknownTheme, whatever the language and format
arguments are — theme resolution runs before language resolution and
format dispatch, even before the syntax set is inspected at all. -/
theorem claim_C7_unknown_theme_first (s : LibState) (text lang fmt theme : String)
    (h1 : s.thmPoisoned = false) (h2 : s.synPoisoned = false)
    (h3 : lookupTheme s.themeSet theme = none) :
    (color s text lang fmt theme).2
      = Outcome.ok (Term.tuple2 (Term.status NifStatus.error) (Term.kind ErrorKind.unknownTheme)) := by
  simp [color, h1, h2, h3]

/-- C7 witness: an absent theme name fails with UnknownTheme even with an
unknown language and an unsupported format. -/
theorem claim_C7_witness :
    (color initState "text" "no-such-lang" "xml" "no-such-theme").2
      = Outcome.ok (Term.tuple2 (Term.status NifStatus.error) (Term.kind ErrorKind.unknownTheme)) :=
  claim_C7_unknown_theme_first initState "text" "no-such-lang" "xml" "no-such-theme"
    rfl rfl (by decide)

/-- C8: on every reachable state, every outcome of the five public
operations is a structured value — a returned term or the distinct
library_poisoned error — never a reached panic site, and a poisoned lock
makes the readers report exactly the library_poisoned error value. -/
theorem claim_C8_structured_failures (s : LibState) (h : Reachable s)
    (text lang fmt theme c : String) (n : Option String) (b : Bool)
    (bytes : List UInt8) (nm : String) :
    isStructured (color s text lang fmt theme).2
    ∧ isStructured (add_lang s c n b).2
    ∧ isStructured (add_theme s bytes nm).2
    ∧ isStructured (list_langs s).2
    ∧ isStructured (list_themes s).2
    ∧ (s.thmPoisoned = true → (color s text lang fmt theme).2 = Outcome.err poison)
    ∧ (s.synPoisoned = true → (list_langs s).2 = Outcome.err poison) := by
  have hsome := reachable_isSome s h
  refine ⟨color_structured s text lang fmt theme hsome, add_lang_structured s c n b,
    add_theme_structured s bytes nm, list_langs_structured s hsome, list_themes_structured s,
    ?_, ?_⟩
  · intro hp
    simp [color, hp]
  · intro hp
    simp [list_langs, hp]

/-- C8 witness: the initial state is reachable and all five operations
produce structured outcomes on it. -/
theorem claim_C8_witness :
    isStructured (color initState "t" "rust" "terminal" "base16-ocean.dark").2
    ∧ isStructured (add_lang initState "MyLang" none true).2
    ∧ isStructured (add_theme initState [7] "extra").2
    ∧ isStructured (list_langs initState).2
    ∧ isStructured (list_themes initState).2
    ∧ (initState.thmPoisoned = true
        → (color initState "t" "rust" "terminal" "base16-ocean.dark").2 = Outcome.err poison)
    ∧ (initState.synPoisoned = true → (list_langs initState).2 = Outcome.err poison) :=
  claim_C8_structured_failures initState Reachable.init
    "t" "rust" "terminal" "base16-ocean.dark" "MyLang" none true [7] "extra"

/-- C9: on every reachable state the Option inside SYNTAX_SET is Some;
add_lang leaves it Some again, so the expect calls on the read paths of
color and list_langs can never be reached as panics. -/
theorem claim_C9_syntax_set_never_empty (s : LibState) (h : Reachable s)
    (c : String) (n : Option String) (b : Bool)
    (text lang fmt theme m m2 : String) :
    s.syntaxSet.isSome = true
    ∧ (add_lang s c n b).1.syntaxSet.isSome = true
    ∧ (color s text lang fmt theme).2 ≠ Outcome.panicked m
    ∧ (list_langs s).2 ≠ Outcome.panicked m2 := by
  have hsome := reachable_isSome s h
  refine ⟨hsome, add_lang_isSome s c n b hsome, ?_, ?_⟩
  · intro hcontra
    rcases color_structured s text lang fmt theme hsome with ⟨t, ht⟩ | ht <;>
      rw [hcontra] at ht <;> simp at ht
  · intro hcontra
    rcases list_langs_structured s hsome with ⟨t, ht⟩ | ht <;>
      rw [hcontra] at ht <;> simp at ht

/-- C9 witness: on the initial state the syntax set is Some, stays Some
across a registration, and the read paths do not panic. -/
theorem claim_C9_witness :
    initState.syntaxSet.isSome = true
    ∧ (add_lang initState "MyLang" (some "Foo") false).1.syntaxSet.isSome = true
    ∧ (color initState "t" "rust" "html" "base16-ocean.dark").2
        ≠ Outcome.panicked "a read lock cannot observe an empty syntax set"
    ∧ (list_langs initState).2
        ≠ Outcome.panicked "a read lock can never observe an empty SyntaxSet" :=
  claim_C9_syntax_set_never_empty initState Reachable.init "MyLang" (some "Foo") false
    "t" "rust" "html" "base16-ocean.dark"
    "a read lock cannot observe an empty syntax set"
    "a read lock can never observe an empty SyntaxSet"

/-- C10: highlight never mutates the catalogs — the state it returns is
the state it was given — so a second call with identical text, language,
format, and theme arguments, run from the state the first call left
behind, returns the identical result. -/
theorem claim_C10_highlight_deterministic (s : LibState) (text lang fmt theme : String) :
    (color s text lang fmt theme).1 = s
    ∧ (color (color s text lang fmt theme).1 text lang fmt theme).2
        = (color s text lang fmt theme).2 := by
  refine ⟨color_state_id s text lang fmt theme, ?_⟩
  rw [color_state_id]

/-- C10 witness: a concrete repeated call returns the identical result. -/
theorem claim_C10_witness :
    (color initState "ab" "rust" "terminal" "base16-ocean.dark").1 = initState
    ∧ (color (color initState "ab" "rust" "terminal" "base16-ocean.dark").1
          "ab" "rust" "terminal" "base16-ocean.dark").2
        = (color initState "ab" "rust" "terminal" "base16-ocean.dark").2 :=
  claim_C10_highlight_deterministic initState "ab" "rust" "terminal" "base16-ocean.dark"

end Crayons
